import Mathlib

/-!
# Verification of the Recognize batch audio-transcription pipeline

Shallow embedding of `src/audio_transcriber.py` (the current variant; the
older `src/audio_transcriber_old.py` shares `format_duration` and the
technical-information block verbatim).

Modelling conventions:
* The filesystem of the working directory is a list of `(filename, content)`
  pairs; a Python write-mode open of a name is modelled by consing a fresh entry, which
  shadows any older entry with the same name (`FS.read` finds the newest).
* Python `float` durations and `avg_logprob` values are modelled as `ℚ`;
  `x // y` is `⌊x / y⌋` and `x % y` (positive divisor) is `x - y * ⌊x / y⌋`,
  which matches the Python sign-follows-divisor semantics.
* The external Whisper call `whisper.transcribe(...)` may raise; its outcome
  for a given file is an explicit `Except String TranscriptionResult`
  parameter (`.error e` models an exception with message `str(e) = e`).
  An exception raised inside `create_detailed_markdown` (e.g. a write
  failure) is modelled by an explicit `Option String` fault parameter that
  takes effect exactly at the point where that function is invoked; both
  kinds of exception are caught by the `try/except` of
  `transcribe_audio_file`.
* Console prints / macOS notifications that announce the per-file outcome
  are modelled as an explicit `FileEvent` in the step result.
-/

/-- A Whisper segment: required keys `start`, `end`, `text`; the
`avg_logprob` key may be absent (the code reads it with a dict get defaulting to 0). -/
structure Segment where
  start : ℚ
  end_ : ℚ
  text : String
  avg_logprob : Option ℚ
deriving Repr, DecidableEq

/-- A Whisper result dict: required key `text`; keys `language` and
`segments` may be absent. -/
structure TranscriptionResult where
  text : String
  language : Option String
  segments : Option (List Segment)
deriving Repr, DecidableEq

/-- An audio file found in the working directory: its path (`audio_file`),
its stem (`Path(audio_file).stem`), and its size in bytes
(`os.path.getsize`). -/
structure AudioFile where
  name : String
  stem : String
  size : ℕ
deriving Repr, DecidableEq

/-- Contents of the working directory: newest entry first. -/
abbrev FS := List (String × String)

/-- Models `os.path.exists(name)` restricted to the modelled directory. -/
def FS.exists_ (fs : FS) (name : String) : Bool :=
  fs.any (fun p => p.1 == name)

/-- Reads the current content of a file (newest entry shadows older ones). -/
def FS.read (fs : FS) (name : String) : Option String :=
  (fs.find? (fun p => p.1 == name)).map Prod.snd

/-- Models a write-mode open followed by a full write: the new entry shadows any older one. -/
def FS.write (fs : FS) (name content : String) : FS :=
  (name, content) :: fs

/-- Computes `hours = int(seconds // 3600)` from `format_duration`: the floor
`⌊seconds / 3600⌋` (Python float `//` is floor division, and `int(...)` of
the already-integral float is the identity), computed on the numerator and
denominator so that the kernel can evaluate it; `fd_hours_eq_floor` below
proves it equal to `⌊seconds / 3600⌋`. -/
def fd_hours (q : ℚ) : ℤ :=
  q.num / (3600 * q.den)

/-- Computes `minutes = int((seconds % 3600) // 60)` from `format_duration`: for the
positive divisor 3600, Python float `%` returns `seconds - 3600 * ⌊seconds /
3600⌋`, so this is `⌊(seconds - 3600 * ⌊seconds / 3600⌋) / 60⌋`;
`fd_minutes_eq_floor` below proves the bridge. -/
def fd_minutes (q : ℚ) : ℤ :=
  (q.num - 3600 * fd_hours q * q.den) / (60 * q.den)

/-- Computes `seconds = int(seconds % 60)` from `format_duration`: `seconds % 60 =
seconds - 60 * ⌊seconds / 60⌋` lies in `[0, 60)`, so `int(...)` (truncation
toward zero) coincides with the floor; `fd_secs_eq_floor` below proves the
bridge. -/
def fd_secs (q : ℚ) : ℤ :=
  (q.num - 60 * (q.num / (60 * q.den)) * q.den) / (1 * q.den)

/-- Embeds `format_duration(seconds)` from `audio_transcriber.py`, lines 37–48
(identical in `audio_transcriber_old.py`, lines 26–37). -/
def format_duration (seconds : ℚ) : String :=
  if fd_hours seconds > 0 then
    toString (fd_hours seconds) ++ "ч " ++ toString (fd_minutes seconds)
      ++ "м " ++ toString (fd_secs seconds) ++ "с"
  else if fd_minutes seconds > 0 then
    toString (fd_minutes seconds) ++ "м " ++ toString (fd_secs seconds) ++ "с"
  else
    toString (fd_secs seconds) ++ "с"

/-- Truthiness of `result.get(segments)` as used on lines 153 and 165–167:
true iff the segments key is present and the list is non-empty. -/
def truthy_segments (r : TranscriptionResult) : Bool :=
  match r.segments with
  | some l => !l.isEmpty
  | none => false

/-- Preview computed by `create_simple_markdown` (lines 100–102): the first
50 characters of the stripped text, with an ellipsis appended when the
stripped text is longer than 50 characters. -/
def preview_of (r : TranscriptionResult) : String :=
  let t := r.text.trim
  if t.length > 50 then t.take 50 ++ "..." else t.take 50

/-- Content written by `create_simple_markdown` (lines 104–108). -/
def simple_content (file : AudioFile) (r : TranscriptionResult) : String :=
  "# Транскрипция: " ++ file.name ++ "\n\n" ++ r.text.trim ++ "\n"

/-- Renders the file size in MiB with two decimals, as in the Python
format spec .2f applied to size / (1024*1024). The exact float rounding
mode is immaterial to every claim; we truncate. -/
def mb_str (bytes : ℕ) : String :=
  let centi := bytes * 100 / 1048576
  toString (centi / 100) ++ "."
    ++ (if centi % 100 < 10 then "0" else "") ++ toString (centi % 100)

/-- Language line of the detailed report (lines 149–150): emitted iff the
language key is present in the result dict. -/
def language_line (r : TranscriptionResult) : String :=
  match r.language with
  | some lang => "- **Обнаруженный язык**: " ++ lang ++ "\n"
  | none => ""

/-- One numbered, timestamped segment block (lines 155–160). -/
def segment_block (i : ℕ) (s : Segment) : String :=
  "**" ++ toString i ++ ". [" ++ format_duration s.start ++ " - "
    ++ format_duration s.end_ ++ "]**\n" ++ "```\n" ++ s.text.trim ++ "\n```\n\n"

/-- Consecutive segment blocks numbered from `i` (the Python enumerate
starting at 1). -/
def segment_blocks (i : ℕ) : List Segment → String
  | [] => ""
  | s :: rest => segment_block i s ++ segment_blocks (i + 1) rest

/-- Segments section (lines 152–160): emitted iff `segments` is present and
non-empty. -/
def segments_section (r : TranscriptionResult) : String :=
  if truthy_segments r then
    "\n### Временные сегменты\n\n" ++ segment_blocks 1 (r.segments.getD [])
  else ""

/-- Total-duration field of the technical information block (line 165):
the formatted end time of the last segment when `result.get(segments)` is
truthy, the literal Неизвестно otherwise. The Python fallback chain
`result.get(segments, [dict()])[-1].get(end, 0)` can only run under the
truthiness guard, where the defaults are never taken; the `getLast?`/0
fallbacks here mirror those never-taken defaults. -/
def total_duration_str (r : TranscriptionResult) : String :=
  if truthy_segments r then
    format_duration
      (match (r.segments.getD []).getLast? with
       | some s => s.end_
       | none => 0)
  else "Неизвестно"

/-- Segment-count field (line 166): `len(result.get(segments, []))`. -/
def segments_count (r : TranscriptionResult) : ℕ :=
  (r.segments.getD []).length

/-- The mean confidence computed on line 167 for a segment list:
`sum(s.get(avg_logprob, 0) for s in segs) / len(segs)`; a segment without
the key contributes 0 to the numerator but is counted in the denominator. -/
def avg_logprob_mean (l : List Segment) : ℚ :=
  (l.map (fun s => s.avg_logprob.getD 0)).sum / (l.length : ℚ)

/-- Average-confidence field (line 167): the mean when
`result.get(segments)` is truthy, the literal Неизвестно otherwise. The
guard is evaluated first, so the division is only ever performed on a
non-empty segment list. -/
def avg_confidence_str (r : TranscriptionResult) : String :=
  if truthy_segments r then toString (avg_logprob_mean (r.segments.getD []))
  else "Неизвестно"

/-- Serialization of one segment inside the raw-JSON section. The exact
`json.dumps` formatting (indentation, float formatting, string escaping) is
immaterial to every claim; this canonical rendering stands in for it. -/
def dump_segment (s : Segment) : String :=
  "\x7b\"start\": " ++ toString s.start ++ ", \"end\": " ++ toString s.end_
    ++ ", \"text\": \"" ++ s.text ++ "\""
    ++ (match s.avg_logprob with
        | some c => ", \"avg_logprob\": " ++ toString c
        | none => "")
    ++ "\x7d"

/-- Serialization of the whole result inside the raw-JSON section (stands in
for `json.dumps(result, ensure_ascii=False, indent=2)` on line 174). -/
def dump_result (r : TranscriptionResult) : String :=
  "\x7b\"text\": \"" ++ r.text ++ "\""
    ++ (match r.language with
        | some lang => ", \"language\": \"" ++ lang ++ "\""
        | none => "")
    ++ (match r.segments with
        | some l => ", \"segments\": [" ++ String.intercalate ", " (l.map dump_segment) ++ "]"
        | none => "")
    ++ "\x7d"

/-- Content written by `create_detailed_markdown` (lines 129–180):
heading, file-information block, main text, optional language line,
optional segments section, technical information, raw JSON, footer. -/
def detailed_content (file : AudioFile) (r : TranscriptionResult)
    (model_name now : String) : String :=
  "# Детальная транскрипция: " ++ file.name ++ "\n\n"
    ++ "## Информация о файле\n"
    ++ "- **Имя файла**: `" ++ file.name ++ "`\n"
    ++ "- **Размер**: " ++ mb_str file.size ++ " МБ\n"
    ++ "- **Дата обработки**: " ++ now ++ "\n"
    ++ "- **Модель Whisper**: " ++ model_name ++ "\n\n"
    ++ "## Результаты распознавания\n\n"
    ++ "### Основной текст\n```\n" ++ r.text.trim ++ "\n```\n\n"
    ++ "### Детальная информация\n"
    ++ language_line r
    ++ segments_section r
    ++ "\n### Техническая информация\n"
    ++ "- **Общая длительность**: " ++ total_duration_str r ++ "\n"
    ++ "- **Количество сегментов**: " ++ toString (segments_count r) ++ "\n"
    ++ "- **Средняя уверенность**: " ++ avg_confidence_str r ++ "\n\n"
    ++ "### Сырые данные (JSON)\n<details>\n<summary>Развернуть полную информацию</summary>\n\n"
    ++ "```json\n" ++ dump_result r ++ "\n```\n</details>\n\n"
    ++ "---\n*Файл создан автоматически с помощью Whisper AI*\n"

/-- Candidate names tried by `create_smart_filename(base, ext,
add_timestamp=False)` (lines 84–91): first `base + ext`, then
`base_1 + ext`, `base_2 + ext`, ... -/
def smart_candidate (base ext : String) : ℕ → String
  | 0 => base ++ ext
  | n + 1 => base ++ "_" ++ toString (n + 1) ++ ext

/-- Fuel-driven while-loop of `create_smart_filename`: keep advancing the
counter while the candidate exists. The fuel only bounds the loop for
totality; `create_smart_filename` supplies one more unit of fuel than there
are directory entries, which is beyond what the loop can consume, so the
fuel-exhausted fallback (returning the current candidate) is unreachable.
Every claim exercises only the first iteration (target name absent). -/
def smart_loop (fs : FS) (base ext : String) : ℕ → ℕ → String
  | 0, i => smart_candidate base ext i
  | fuel + 1, i =>
    if FS.exists_ fs (smart_candidate base ext i) then
      smart_loop fs base ext fuel (i + 1)
    else smart_candidate base ext i

/-- Embeds `create_smart_filename(base_name, extension,
add_timestamp=False)` (lines 84–91): returns the first candidate name not
present on disk. (`create_simple_markdown` and `create_detailed_markdown`
always call it with `add_timestamp=False`; the timestamp branch is dead in
this program.) -/
def create_smart_filename (fs : FS) (base ext : String) : String :=
  smart_loop fs base ext (fs.length + 1) 0

/-- Embeds `create_simple_markdown(audio_file, result)` (lines 94–114):
chooses the target name, computes the preview, writes the simple content;
returns the written name, the preview and the new directory state. -/
def create_simple_markdown (fs : FS) (file : AudioFile)
    (r : TranscriptionResult) : String × String × FS :=
  let md_file := create_smart_filename fs file.stem ".md"
  (md_file, preview_of r, FS.write fs md_file (simple_content file r))

/-- Embeds `create_detailed_markdown(audio_file, result, model_name)`
(lines 117–186): chooses the target name and writes the detailed content;
returns the written name and the new directory state. The processing
timestamp `datetime.datetime.now()` is passed in as `now`. -/
def create_detailed_markdown (fs : FS) (file : AudioFile)
    (r : TranscriptionResult) (model_name now : String) : String × FS :=
  let md_file := create_smart_filename fs (file.stem ++ "_accurate") ".md"
  (md_file, FS.write fs md_file (detailed_content file r model_name now))

/-- Observable per-file outcome announced by `transcribe_audio_file` via
prints and notifications: a skip (lines 208–211), a completed processing
(line 254), or a caught exception with its message (lines 258–262). -/
inductive FileEvent where
  | skipped
  | done
  | failed (msg : String)
deriving Repr, DecidableEq

/-- Result of one `transcribe_audio_file` call: the returned
`(created_files, preview_text)` pair, the announced outcome, and the
directory state afterwards. -/
structure StepResult where
  created : List String
  preview : String
  event : FileEvent
  fs : FS
deriving Repr, DecidableEq

/-- Error message built on line 259. -/
def err_msg (name e : String) : String :=
  "Ошибка при обработке " ++ name ++ ": " ++ e

/-- Lines 242–246 of `transcribe_audio_file`: write the simple report iff
its fixed name is absent; returns the created-file names so far, the
preview text, and the directory state. -/
def write_simple_if_missing (fs : FS) (file : AudioFile)
    (r : TranscriptionResult) : List String × String × FS :=
  if FS.exists_ fs (file.stem ++ ".md") then ([], "", fs)
  else
    let c := create_simple_markdown fs file r
    ([c.1], c.2.1, c.2.2)

/-- Embeds `transcribe_audio_file(audio_file, model, model_name)`
(lines 189–262). `tr` is the outcome of the `whisper.transcribe` call
(`.error e` = the call raised with message `e`); `dFault = some e` injects
an exception with message `e` at the `create_detailed_markdown` call (it
can only fire when that call is reached). Both exceptions are caught by the
try/except, which returns `([], "")`. -/
def transcribe_audio_file (fs : FS) (file : AudioFile)
    (model_name now : String) (tr : Except String TranscriptionResult)
    (dFault : Option String) : StepResult :=
  if FS.exists_ fs (file.stem ++ ".md")
      && FS.exists_ fs (file.stem ++ "_accurate.md") then
    ⟨[file.stem ++ ".md", file.stem ++ "_accurate.md"], "", .skipped, fs⟩
  else
    match tr with
    | .error e => ⟨[], "", .failed (err_msg file.name e), fs⟩
    | .ok r =>
      let s := write_simple_if_missing fs file r
      if FS.exists_ s.2.2 (file.stem ++ "_accurate.md") then
        ⟨s.1, s.2.1, .done, s.2.2⟩
      else
        match dFault with
        | some e => ⟨[], "", .failed (err_msg file.name e), s.2.2⟩
        | none =>
          let d := create_detailed_markdown s.2.2 file r model_name now
          ⟨s.1 ++ [d.1], s.2.1, .done, d.2⟩

/-- One batch job: the audio file together with the modelled outcome of its
external transcription call and the optional fault injected at its
`create_detailed_markdown` call. -/
structure FileJob where
  file : AudioFile
  tr : Except String TranscriptionResult
  dFault : Option String

/-- Accumulated observable state of the per-file loop of `main`
(lines 318–328): `all_created_files`, `all_words_count`, the per-file
events in order, and the final directory state. -/
structure BatchOut where
  created : List String
  words : ℕ
  events : List FileEvent
  fs : FS

/-- Word counting of lines 324–326: when the preview is truthy (non-empty),
`len(preview.split()) * 10` with whitespace splitting that discards empty
pieces. -/
def preview_words (preview : String) : ℕ :=
  if preview = "" then 0
  else ((preview.split Char.isWhitespace).filter (fun s => !s.isEmpty)).length * 10

/-- The per-file loop of `main` (lines 318–328): processes the jobs in
discovery order, threading the directory state and extending
`all_created_files` and `all_words_count`. -/
def processFiles (fs : FS) (model_name now : String) : List FileJob → BatchOut
  | [] => ⟨[], 0, [], fs⟩
  | j :: rest =>
    let s := transcribe_audio_file fs j.file model_name now j.tr j.dFault
    let out := processFiles s.fs model_name now rest
    ⟨s.created ++ out.created, preview_words s.preview + out.words,
      s.event :: out.events, out.fs⟩

/-- Statistics printed by `main` at the end of the run (lines 333–339):
the number of audio files handled (`len(audio_files)`), the length of
`all_created_files`, and the approximate word count. No other aggregate
counters exist in the program. -/
structure SessionStats where
  audioFilesCount : ℕ
  createdFilesCount : ℕ
  approxWords : ℕ
deriving Repr, DecidableEq

/-- The batch run of `main` (lines 294–339) after discovery and model
loading: process every file, then report the printed statistics. -/
def run_main (fs : FS) (model_name now : String) (jobs : List FileJob) :
    SessionStats × BatchOut :=
  let out := processFiles fs model_name now jobs
  (⟨jobs.length, out.created.length, out.words⟩, out)

/-- Report-pair resolution of `transcribe_audio_file`, lines 203–205:
`simple = stem + ".md"`, `detailed = stem + "_accurate.md"`, a pure
function of the stem. -/
def report_pair (stem : String) : String × String :=
  (stem ++ ".md", stem ++ "_accurate.md")

/-- Skip decision of `transcribe_audio_file`, line 208: true iff both
report names exist on disk. -/
def alreadyProcessed (fs : FS) (stem : String) : Bool :=
  FS.exists_ fs (stem ++ ".md") && FS.exists_ fs (stem ++ "_accurate.md")

/-- The seven glob patterns of `get_audio_files` (line 28), each
represented by its literal extension (the pattern is `*.` followed by the
extension). File names are modelled as character lists to reason about
suffix matching. -/
def audio_extensions : List (List Char) :=
  [['m', 'p', '3'], ['w', 'a', 'v'], ['m', '4', 'a'], ['f', 'l', 'a', 'c'],
   ['o', 'g', 'g'], ['w', 'm', 'a'], ['a', 'a', 'c']]

/-- Matching of the pattern `*.` + ext against a file name, per the
documented semantics of `glob.glob`: `*` matches any run of characters of a
non-directory path component, but a name beginning with a dot is only
matched by a pattern that also begins with a dot — so these patterns never
match dotfiles. Hence: the name does not start with a dot and ends with
dot + extension. -/
def glob_match (ext name : List Char) : Bool :=
  (match name with
   | [] => false
   | c :: _ => c != '.')
  && List.isSuffixOf ('.' :: ext) name

/-- Embeds `get_audio_files()` (lines 26–34): for each pattern in order,
append the directory entries matching it (in directory order) to the
result. `dir` is the name listing of the single scanned directory. -/
def get_audio_files (dir : List (List Char)) : List (List Char) :=
  (audio_extensions.map (fun ext => dir.filter (fun n => glob_match ext n))).flatten

/-- Modelled from the claim wording of C8 (a second definition for
comparison, not taken from the source): the extension of a file name, the
run of characters after its last dot. -/
def claim_extension (name : List Char) : List Char :=
  (name.reverse.takeWhile (fun c => c != '.')).reverse

/-! ## Helper lemmas -/

theorem FS.exists_write (fs : FS) (n c m : String) :
    FS.exists_ (FS.write fs n c) m = ((n == m) || FS.exists_ fs m) := by
  simp [FS.exists_, FS.write, List.any_cons]

theorem FS.read_write_self (fs : FS) (n c : String) :
    FS.read (FS.write fs n c) n = some c := by
  simp [FS.read, FS.write, List.find?]

theorem FS.read_write_ne (fs : FS) (n c m : String) (h : n ≠ m) :
    FS.read (FS.write fs n c) m = FS.read fs m := by
  simp only [FS.read, FS.write, List.find?]
  rw [show ((n, c).1 == m) = false from beq_eq_false_iff_ne.mpr h]

/-- Key arithmetic fact: `⌊(q - a) / d⌋` computed on numerator/denominator,
for an integer shift `a` and a positive natural divisor `d`. -/
theorem floor_sub_int_div_nat (q : ℚ) (a : ℤ) (d : ℕ) (hd : d ≠ 0) :
    (q.num - a * q.den) / ((d : ℤ) * q.den) = ⌊(q - (a : ℚ)) / (d : ℚ)⌋ := by
  have hden : (q.den : ℚ) ≠ 0 := Nat.cast_ne_zero.mpr q.den_nz
  have hdq : ((d : ℚ)) ≠ 0 := Nat.cast_ne_zero.mpr hd
  have hnum : (q.num : ℚ) = q * q.den := (div_eq_iff hden).mp (Rat.num_div_den q)
  have hq : (q - (a : ℚ)) / (d : ℚ)
      = ((q.num - a * q.den : ℤ) : ℚ) / ((d * q.den : ℕ) : ℚ) := by
    push_cast
    field_simp
    rw [hnum]
    ring
  rw [hq, Rat.floor_intCast_div_natCast]
  push_cast
  ring_nf

theorem fd_hours_eq_floor (q : ℚ) : fd_hours q = ⌊q / 3600⌋ := by
  have h := floor_sub_int_div_nat q 0 3600 (by decide)
  push_cast at h
  simpa [fd_hours] using h

theorem fd_minutes_eq_floor (q : ℚ) :
    fd_minutes q = ⌊(q - 3600 * (⌊q / 3600⌋ : ℚ)) / 60⌋ := by
  have h := floor_sub_int_div_nat q (3600 * ⌊q / 3600⌋) 60 (by decide)
  push_cast at h
  rw [fd_minutes, fd_hours_eq_floor]
  exact h

theorem fd_secs_eq_floor (q : ℚ) : fd_secs q = ⌊q - 60 * (⌊q / 60⌋ : ℚ)⌋ := by
  have hf : q.num / (60 * q.den) = ⌊q / 60⌋ := by
    have h := floor_sub_int_div_nat q 0 60 (by decide)
    push_cast at h
    simpa using h
  have h := floor_sub_int_div_nat q (60 * ⌊q / 60⌋) 1 (by decide)
  push_cast at h
  rw [fd_secs, hf]
  simpa using h

theorem create_smart_filename_of_not_exists (fs : FS) (base ext : String)
    (h : FS.exists_ fs (base ++ ext) = false) :
    create_smart_filename fs base ext = base ++ ext := by
  simp [create_smart_filename, smart_loop, smart_candidate, h]

/-- The two report names of a stem differ (their lengths differ by 9). -/
theorem simple_name_ne_detailed_name (stem : String) :
    stem ++ ".md" ≠ stem ++ "_accurate.md" := by
  intro h
  have hlen := congrArg String.length h
  rw [String.length_append, String.length_append] at hlen
  have h3 : (".md" : String).length = 3 := by decide
  have h12 : ("_accurate.md" : String).length = 12 := by decide
  omega

/-- Both report names are non-empty. -/
theorem report_names_ne_empty (stem : String) :
    stem ++ ".md" ≠ "" ∧ stem ++ "_accurate.md" ≠ "" := by
  constructor <;> intro h <;> have hlen := congrArg String.length h <;>
    rw [String.length_append] at hlen
  · have h3 : (".md" : String).length = 3 := by decide
    have h0 : ("" : String).length = 0 := by decide
    omega
  · have h12 : ("_accurate.md" : String).length = 12 := by decide
    have h0 : ("" : String).length = 0 := by decide
    omega

/-- The name chosen for the detailed report when it is absent: the fixed
name, because the smart-filename loop exits on its first candidate. -/
theorem detailed_smart_name (fs : FS) (stem : String)
    (h : FS.exists_ fs (stem ++ "_accurate.md") = false) :
    create_smart_filename fs (stem ++ "_accurate") ".md" = stem ++ "_accurate.md" := by
  have ha : ("_accurate" : String) ++ ".md" = "_accurate.md" := by decide
  have hassoc : stem ++ "_accurate" ++ ".md" = stem ++ "_accurate.md" := by
    rw [String.append_assoc, ha]
  rw [create_smart_filename_of_not_exists fs (stem ++ "_accurate") ".md" (by rw [hassoc]; exact h),
    hassoc]

/-- Case lemma: when both report files already exist, the step skips:
it returns the two names, announces a skip, and leaves the directory
untouched, for every transcription outcome and fault. -/
theorem step_skip (fs : FS) (file : AudioFile) (model_name now : String)
    (tr : Except String TranscriptionResult) (dFault : Option String)
    (h : alreadyProcessed fs file.stem = true) :
    transcribe_audio_file fs file model_name now tr dFault =
      ⟨[file.stem ++ ".md", file.stem ++ "_accurate.md"], "", .skipped, fs⟩ := by
  simp only [alreadyProcessed] at h
  simp [transcribe_audio_file, h]

/-- Case lemma: when not skipped and the transcription call raises, the step
returns an empty created list, announces the failure with the error
message, and leaves the directory untouched. -/
theorem step_error (fs : FS) (file : AudioFile) (model_name now e : String)
    (dFault : Option String) (h : alreadyProcessed fs file.stem = false) :
    transcribe_audio_file fs file model_name now (.error e) dFault =
      ⟨[], "", .failed (err_msg file.name e), fs⟩ := by
  simp only [alreadyProcessed] at h
  simp [transcribe_audio_file, h]

/-- Case lemma: when not skipped, the announced outcome is never a skip. -/
theorem step_event_not_skipped (fs : FS) (file : AudioFile)
    (model_name now : String) (tr : Except String TranscriptionResult)
    (dFault : Option String) (h : alreadyProcessed fs file.stem = false) :
    (transcribe_audio_file fs file model_name now tr dFault).event ≠ .skipped := by
  simp only [alreadyProcessed] at h
  rcases tr with e | r
  · simp [transcribe_audio_file, h]
  · by_cases h2 :
      FS.exists_ (write_simple_if_missing fs file r).2.2 (file.stem ++ "_accurate.md") = true
    · simp [transcribe_audio_file, h, h2]
    · rcases dFault with _ | e <;>
        simp [transcribe_audio_file, h, Bool.eq_false_iff.mpr h2]

/-- Case lemma: simple report present, detailed absent, transcription
succeeds, no write fault: the step creates exactly the detailed report. -/
theorem step_only_detailed_missing (fs : FS) (file : AudioFile)
    (model_name now : String) (r : TranscriptionResult)
    (h1 : FS.exists_ fs (file.stem ++ ".md") = true)
    (h2 : FS.exists_ fs (file.stem ++ "_accurate.md") = false) :
    transcribe_audio_file fs file model_name now (.ok r) none =
      ⟨[file.stem ++ "_accurate.md"], "", .done,
        FS.write fs (file.stem ++ "_accurate.md")
          (detailed_content file r model_name now)⟩ := by
  have hw : write_simple_if_missing fs file r = ([], "", fs) := by
    simp [write_simple_if_missing, h1]
  simp [transcribe_audio_file, h1, h2, hw, create_detailed_markdown,
    detailed_smart_name fs file.stem h2]

/-- Case lemma: simple report absent, detailed present, transcription
succeeds: the step creates exactly the simple report (for any fault
parameter, since the detailed write is never attempted). -/
theorem step_only_simple_missing (fs : FS) (file : AudioFile)
    (model_name now : String) (r : TranscriptionResult) (dFault : Option String)
    (h1 : FS.exists_ fs (file.stem ++ ".md") = false)
    (h2 : FS.exists_ fs (file.stem ++ "_accurate.md") = true) :
    transcribe_audio_file fs file model_name now (.ok r) dFault =
      ⟨[file.stem ++ ".md"], preview_of r, .done,
        FS.write fs (file.stem ++ ".md") (simple_content file r)⟩ := by
  have hname : create_smart_filename fs file.stem ".md" = file.stem ++ ".md" :=
    create_smart_filename_of_not_exists fs file.stem ".md" h1
  have hw : write_simple_if_missing fs file r =
      ([file.stem ++ ".md"], preview_of r,
        FS.write fs (file.stem ++ ".md") (simple_content file r)) := by
    simp [write_simple_if_missing, h1, create_simple_markdown, hname]
  have hex : FS.exists_ (FS.write fs (file.stem ++ ".md") (simple_content file r))
      (file.stem ++ "_accurate.md") = true := by
    rw [FS.exists_write]
    simp [h2]
  simp [transcribe_audio_file, h1, h2, hw, hex]

/-- Case lemma: both reports absent, transcription succeeds, no write
fault: the step writes first the simple then the detailed report and
returns both names. -/
theorem step_fresh (fs : FS) (file : AudioFile) (model_name now : String)
    (r : TranscriptionResult)
    (h1 : FS.exists_ fs (file.stem ++ ".md") = false)
    (h2 : FS.exists_ fs (file.stem ++ "_accurate.md") = false) :
    transcribe_audio_file fs file model_name now (.ok r) none =
      ⟨[file.stem ++ ".md", file.stem ++ "_accurate.md"], preview_of r, .done,
        FS.write (FS.write fs (file.stem ++ ".md") (simple_content file r))
          (file.stem ++ "_accurate.md") (detailed_content file r model_name now)⟩ := by
  have hname : create_smart_filename fs file.stem ".md" = file.stem ++ ".md" :=
    create_smart_filename_of_not_exists fs file.stem ".md" h1
  have hw : write_simple_if_missing fs file r =
      ([file.stem ++ ".md"], preview_of r,
        FS.write fs (file.stem ++ ".md") (simple_content file r)) := by
    simp [write_simple_if_missing, h1, create_simple_markdown, hname]
  have hex : FS.exists_ (FS.write fs (file.stem ++ ".md") (simple_content file r))
      (file.stem ++ "_accurate.md") = false := by
    rw [FS.exists_write]
    simp [h2, beq_eq_false_iff_ne.mpr (simple_name_ne_detailed_name file.stem)]
  have hd : FS.exists_ (FS.write fs (file.stem ++ ".md") (simple_content file r))
      (file.stem ++ "_accurate" ++ ".md") = false := by
    rw [String.append_assoc]
    rw [show ("_accurate" : String) ++ ".md" = "_accurate.md" from by decide]
    exact hex
  have hdn : create_smart_filename
      (FS.write fs (file.stem ++ ".md") (simple_content file r))
      (file.stem ++ "_accurate") ".md" = file.stem ++ "_accurate.md" :=
    detailed_smart_name _ file.stem hex
  simp [transcribe_audio_file, h1, h2, hw, hex, create_detailed_markdown, hdn]

/-- Case lemma: both reports absent, transcription succeeds, but the
detailed write raises: the caught exception makes the step return an empty
created list and announce the failure, while the simple report written
before the exception stays on disk. -/
theorem step_detailed_fault (fs : FS) (file : AudioFile)
    (model_name now : String) (r : TranscriptionResult) (e : String)
    (h1 : FS.exists_ fs (file.stem ++ ".md") = false)
    (h2 : FS.exists_ fs (file.stem ++ "_accurate.md") = false) :
    transcribe_audio_file fs file model_name now (.ok r) (some e) =
      ⟨[], "", .failed (err_msg file.name e),
        FS.write fs (file.stem ++ ".md") (simple_content file r)⟩ := by
  have hname : create_smart_filename fs file.stem ".md" = file.stem ++ ".md" :=
    create_smart_filename_of_not_exists fs file.stem ".md" h1
  have hw : write_simple_if_missing fs file r =
      ([file.stem ++ ".md"], preview_of r,
        FS.write fs (file.stem ++ ".md") (simple_content file r)) := by
    simp [write_simple_if_missing, h1, create_simple_markdown, hname]
  have hex : FS.exists_ (FS.write fs (file.stem ++ ".md") (simple_content file r))
      (file.stem ++ "_accurate.md") = false := by
    rw [FS.exists_write]
    simp [h2, beq_eq_false_iff_ne.mpr (simple_name_ne_detailed_name file.stem)]
  simp [transcribe_audio_file, h1, h2, hw, hex]

/-- Every job yields exactly one per-file event and the loop always reaches
the end of the job list: no outcome aborts the batch. -/
theorem processFiles_events_length (model_name now : String) :
    ∀ (jobs : List FileJob) (fs : FS),
      (processFiles fs model_name now jobs).events.length = jobs.length := by
  intro jobs
  induction jobs with
  | nil => intro fs; simp [processFiles]
  | cons j rest ih =>
    intro fs
    simp [processFiles, ih]

/-- No file name matches two distinct patterns of `get_audio_files`: the
dotted extensions are suffixes of the name of equal length (all pairs of
three-letter extensions) or the shorter would have to be a suffix of
`.flac`, which starts with a dot in the wrong place. -/
theorem audio_extensions_exclusive :
    ∀ e1 ∈ audio_extensions, ∀ e2 ∈ audio_extensions, e1 ≠ e2 →
      ∀ name : List Char,
        ¬(glob_match e1 name = true ∧ glob_match e2 name = true) := by
  intro e1 h1 e2 h2 hne name hg
  obtain ⟨g1, g2⟩ := hg
  simp only [glob_match, Bool.and_eq_true] at g1 g2
  have s1 : ('.' :: e1) <:+ name := List.isSuffixOf_iff_suffix.mp g1.2
  have s2 : ('.' :: e2) <:+ name := List.isSuffixOf_iff_suffix.mp g2.2
  fin_cases h1 <;> fin_cases h2 <;>
    first
      | exact hne rfl
      | exact absurd (List.suffix_of_suffix_length_le s1 s2 (by decide)) (by decide)
      | exact absurd (List.suffix_of_suffix_length_le s2 s1 (by decide)) (by decide)

/-- A directory listing without duplicate names yields a duplicate-free
discovery result: each name matches at most one pattern, and each pattern
contributes each matching name once. -/
theorem get_audio_files_nodup (dir : List (List Char)) (hd : dir.Nodup) :
    (get_audio_files dir).Nodup := by
  rw [get_audio_files, List.nodup_flatten]
  constructor
  · intro l hl
    simp only [List.mem_map] at hl
    obtain ⟨e, he, rfl⟩ := hl
    exact hd.filter _
  · rw [List.pairwise_map]
    have hne : audio_extensions.Pairwise (fun a b => a ≠ b) := by decide
    refine hne.imp_of_mem ?_
    intro a b ha hb hab x hxa hxb
    have gxa : glob_match a x = true := by
      have := List.mem_filter.mp hxa
      exact this.2
    have gxb : glob_match b x = true := by
      have := List.mem_filter.mp hxb
      exact this.2
    exact audio_extensions_exclusive a ha b hb hab x ⟨gxa, gxb⟩

/-- Membership in the discovery result: exactly the directory entries
matching some pattern. -/
theorem mem_get_audio_files (dir : List (List Char)) (n : List Char) :
    n ∈ get_audio_files dir ↔
      n ∈ dir ∧ ∃ e ∈ audio_extensions, glob_match e n = true := by
  simp only [get_audio_files, List.mem_flatten, List.mem_map]
  constructor
  · rintro ⟨l, ⟨e, he, rfl⟩, hn⟩
    have := List.mem_filter.mp hn
    exact ⟨this.1, e, he, this.2⟩
  · rintro ⟨hn, e, he, hg⟩
    exact ⟨dir.filter (fun m => glob_match e m), ⟨e, he, rfl⟩, List.mem_filter.mpr ⟨hn, hg⟩⟩

/-! ## Claim theorems -/

/-- C1: for every audio file whose two target report paths (stem + ".md"
and stem + "_accurate.md") both already exist on disk, the batch step
records a skip for that file, returns without touching the directory, and
does not invoke the transcription service — the result is identical for
every transcription outcome `tr`, which is never consulted. The skip
decision is true iff both paths exist: whenever at least one of the two
paths is missing, the step never announces a skip. -/
theorem C1_skip_iff_both_reports_exist (fs : FS) (file : AudioFile)
    (model_name now : String) (tr : Except String TranscriptionResult)
    (dFault : Option String) :
    (alreadyProcessed fs file.stem = true →
      transcribe_audio_file fs file model_name now tr dFault =
        ⟨[(report_pair file.stem).1, (report_pair file.stem).2], "", .skipped, fs⟩)
    ∧ (alreadyProcessed fs file.stem = false →
      (transcribe_audio_file fs file model_name now tr dFault).event ≠ .skipped) := by
  constructor
  · intro h
    rw [step_skip fs file model_name now tr dFault h]
    rfl
  · exact step_event_not_skipped fs file model_name now tr dFault

theorem C1_witness :
    alreadyProcessed [("t.md", "a"), ("t_accurate.md", "b")] "t" = true
    ∧ transcribe_audio_file [("t.md", "a"), ("t_accurate.md", "b")]
        ⟨"t.mp3", "t", 4⟩ "medium" "2024-01-01" (.error "boom") none =
        ⟨[(report_pair "t").1, (report_pair "t").2], "", .skipped,
          [("t.md", "a"), ("t_accurate.md", "b")]⟩
    ∧ alreadyProcessed [("t.md", "a")] "t" = false
    ∧ (transcribe_audio_file [("t.md", "a")] ⟨"t.mp3", "t", 4⟩ "medium"
        "2024-01-01" (.error "boom") none).event ≠ .skipped :=
  ⟨by decide,
   (C1_skip_iff_both_reports_exist [("t.md", "a"), ("t_accurate.md", "b")]
     ⟨"t.mp3", "t", 4⟩ "medium" "2024-01-01" (.error "boom") none).1 (by decide),
   by decide,
   (C1_skip_iff_both_reports_exist [("t.md", "a")]
     ⟨"t.mp3", "t", 4⟩ "medium" "2024-01-01" (.error "boom") none).2 (by decide)⟩

/-- C2: when exactly one of the two report files exists before the step,
the step consumes the transcription result (the service is re-invoked: the
outcome below is the `.ok r` branch, while `step_error` shows the `.error`
branch is taken when the call raises), creates exactly the missing report
file, and leaves the content of the already-existing report byte-for-byte
unchanged: reading it after the step yields what it held before. -/
theorem C2_partial_run_regenerates_only_missing_report (fs : FS)
    (file : AudioFile) (model_name now : String) (r : TranscriptionResult) :
    (FS.exists_ fs (file.stem ++ ".md") = true →
      FS.exists_ fs (file.stem ++ "_accurate.md") = false →
      transcribe_audio_file fs file model_name now (.ok r) none =
        ⟨[file.stem ++ "_accurate.md"], "", .done,
          FS.write fs (file.stem ++ "_accurate.md")
            (detailed_content file r model_name now)⟩
      ∧ FS.read (transcribe_audio_file fs file model_name now (.ok r) none).fs
          (file.stem ++ ".md") = FS.read fs (file.stem ++ ".md"))
    ∧ (FS.exists_ fs (file.stem ++ ".md") = false →
      FS.exists_ fs (file.stem ++ "_accurate.md") = true →
      transcribe_audio_file fs file model_name now (.ok r) none =
        ⟨[file.stem ++ ".md"], preview_of r, .done,
          FS.write fs (file.stem ++ ".md") (simple_content file r)⟩
      ∧ FS.read (transcribe_audio_file fs file model_name now (.ok r) none).fs
          (file.stem ++ "_accurate.md") = FS.read fs (file.stem ++ "_accurate.md")) := by
  constructor
  · intro h1 h2
    have hs := step_only_detailed_missing fs file model_name now r h1 h2
    refine ⟨hs, ?_⟩
    rw [hs]
    exact FS.read_write_ne fs _ _ _ (Ne.symm (simple_name_ne_detailed_name file.stem))
  · intro h1 h2
    have hs := step_only_simple_missing fs file model_name now r none h1 h2
    refine ⟨hs, ?_⟩
    rw [hs]
    exact FS.read_write_ne fs _ _ _ (simple_name_ne_detailed_name file.stem)

theorem C2_witness :
    (FS.exists_ [("t.md", "keep")] ("t" ++ ".md") = true
      ∧ FS.exists_ [("t.md", "keep")] ("t" ++ "_accurate.md") = false
      ∧ (transcribe_audio_file [("t.md", "keep")] ⟨"t.mp3", "t", 4⟩ "medium"
          "2024-01-01" (.ok ⟨"hello", none, none⟩) none =
          ⟨["t" ++ "_accurate.md"], "", .done,
            FS.write [("t.md", "keep")] ("t" ++ "_accurate.md")
              (detailed_content ⟨"t.mp3", "t", 4⟩ ⟨"hello", none, none⟩
                "medium" "2024-01-01")⟩
        ∧ FS.read (transcribe_audio_file [("t.md", "keep")] ⟨"t.mp3", "t", 4⟩
            "medium" "2024-01-01" (.ok ⟨"hello", none, none⟩) none).fs
            ("t" ++ ".md") = FS.read [("t.md", "keep")] ("t" ++ ".md")))
    ∧ (FS.exists_ [("t_accurate.md", "keep")] ("t" ++ ".md") = false
      ∧ FS.exists_ [("t_accurate.md", "keep")] ("t" ++ "_accurate.md") = true
      ∧ (transcribe_audio_file [("t_accurate.md", "keep")] ⟨"t.mp3", "t", 4⟩
          "medium" "2024-01-01" (.ok ⟨"hello", none, none⟩) none =
          ⟨["t" ++ ".md"], preview_of ⟨"hello", none, none⟩, .done,
            FS.write [("t_accurate.md", "keep")] ("t" ++ ".md")
              (simple_content ⟨"t.mp3", "t", 4⟩ ⟨"hello", none, none⟩)⟩
        ∧ FS.read (transcribe_audio_file [("t_accurate.md", "keep")]
            ⟨"t.mp3", "t", 4⟩ "medium" "2024-01-01"
            (.ok ⟨"hello", none, none⟩) none).fs
            ("t" ++ "_accurate.md") = FS.read [("t_accurate.md", "keep")]
            ("t" ++ "_accurate.md"))) :=
  ⟨⟨by decide, by decide,
    (C2_partial_run_regenerates_only_missing_report [("t.md", "keep")]
      ⟨"t.mp3", "t", 4⟩ "medium" "2024-01-01" ⟨"hello", none, none⟩).1
      (by decide) (by decide)⟩,
   ⟨by decide, by decide,
    (C2_partial_run_regenerates_only_missing_report [("t_accurate.md", "keep")]
      ⟨"t.mp3", "t", 4⟩ "medium" "2024-01-01" ⟨"hello", none, none⟩).2
      (by decide) (by decide)⟩⟩

/-- C3: for every transcription result whose segments list is empty or
absent, the technical-information fields of the detailed report degrade
gracefully instead of raising: the total-duration and average-confidence
fields are the literal Неизвестно, the segment count is 0, and the
segments section is omitted. The average-confidence value is computed by
the guarded branch of `avg_confidence_str`, so the division by the segment
count is never executed when the guard is false; rendering itself
(`detailed_content`) is a total function of the result. -/
theorem C3_empty_segments_render_safely (r : TranscriptionResult)
    (h : truthy_segments r = false) :
    total_duration_str r = "Неизвестно"
    ∧ avg_confidence_str r = "Неизвестно"
    ∧ segments_count r = 0
    ∧ segments_section r = "" := by
  refine ⟨?_, ?_, ?_, ?_⟩
  · simp [total_duration_str, h]
  · simp [avg_confidence_str, h]
  · cases hs : r.segments with
    | none => simp [segments_count, hs]
    | some l =>
      have : l.isEmpty = true := by
        simpa [truthy_segments, hs] using h
      simp [segments_count, hs, List.isEmpty_iff.mp this]
  · simp [segments_section, h]

theorem C3_witness :
    truthy_segments ⟨"hi", none, some []⟩ = false
    ∧ (total_duration_str ⟨"hi", none, some []⟩ = "Неизвестно"
      ∧ avg_confidence_str ⟨"hi", none, some []⟩ = "Неизвестно"
      ∧ segments_count ⟨"hi", none, some []⟩ = 0
      ∧ segments_section ⟨"hi", none, some []⟩ = "")
    ∧ truthy_segments ⟨"hi", some "ru", none⟩ = false
    ∧ (total_duration_str ⟨"hi", some "ru", none⟩ = "Неизвестно"
      ∧ avg_confidence_str ⟨"hi", some "ru", none⟩ = "Неизвестно"
      ∧ segments_count ⟨"hi", some "ru", none⟩ = 0
      ∧ segments_section ⟨"hi", some "ru", none⟩ = "") :=
  ⟨by decide, C3_empty_segments_render_safely ⟨"hi", none, some []⟩ (by decide),
   by decide, C3_empty_segments_render_safely ⟨"hi", some "ru", none⟩ (by decide)⟩

/-- C4: if the transcription service raises for one audio file (and the
file was not skipped), the step records the failure with the error message
built from the file name and the exception text, creates no report file
(the directory is returned unchanged), and the batch continues: the loop
equation shows the remaining files are processed exactly as they would be
without the failed file, the failure only contributing its event, and the
loop always completes with one event per discovered file, after which
`run_main` reports its statistics. -/
theorem C4_failure_recorded_and_batch_continues (fs : FS) (file : AudioFile)
    (model_name now e : String) (dFault : Option String) (rest : List FileJob)
    (h : alreadyProcessed fs file.stem = false) :
    transcribe_audio_file fs file model_name now (.error e) dFault =
      ⟨[], "", .failed (err_msg file.name e), fs⟩
    ∧ processFiles fs model_name now (⟨file, .error e, dFault⟩ :: rest) =
        ⟨(processFiles fs model_name now rest).created,
          (processFiles fs model_name now rest).words,
          .failed (err_msg file.name e) ::
            (processFiles fs model_name now rest).events,
          (processFiles fs model_name now rest).fs⟩
    ∧ ∀ (jobs : List FileJob) (fs2 : FS),
        (processFiles fs2 model_name now jobs).events.length = jobs.length := by
  refine ⟨step_error fs file model_name now e dFault h, ?_,
    fun jobs fs2 => processFiles_events_length model_name now jobs fs2⟩
  simp [processFiles, step_error fs file model_name now e dFault h, preview_words]

theorem C4_witness :
    alreadyProcessed [] "broken" = false
    ∧ (transcribe_audio_file [] ⟨"broken.wav", "broken", 8⟩ "medium"
        "2024-01-01" (.error "decode error") none =
        ⟨[], "", .failed (err_msg "broken.wav" "decode error"), []⟩
      ∧ processFiles [] "medium" "2024-01-01"
          (⟨⟨"broken.wav", "broken", 8⟩, .error "decode error", none⟩ ::
            [⟨⟨"talk.mp3", "talk", 4⟩, .ok ⟨"hello", none, none⟩, none⟩]) =
          ⟨(processFiles [] "medium" "2024-01-01"
              [⟨⟨"talk.mp3", "talk", 4⟩, .ok ⟨"hello", none, none⟩, none⟩]).created,
            (processFiles [] "medium" "2024-01-01"
              [⟨⟨"talk.mp3", "talk", 4⟩, .ok ⟨"hello", none, none⟩, none⟩]).words,
            .failed (err_msg "broken.wav" "decode error") ::
              (processFiles [] "medium" "2024-01-01"
                [⟨⟨"talk.mp3", "talk", 4⟩, .ok ⟨"hello", none, none⟩, none⟩]).events,
            (processFiles [] "medium" "2024-01-01"
              [⟨⟨"talk.mp3", "talk", 4⟩, .ok ⟨"hello", none, none⟩, none⟩]).fs⟩
      ∧ ∀ (jobs : List FileJob) (fs2 : FS),
          (processFiles fs2 "medium" "2024-01-01" jobs).events.length = jobs.length) :=
  ⟨by decide,
   C4_failure_recorded_and_batch_continues [] ⟨"broken.wav", "broken", 8⟩
     "medium" "2024-01-01" "decode error" none
     [⟨⟨"talk.mp3", "talk", 4⟩, .ok ⟨"hello", none, none⟩, none⟩] (by decide)⟩

/-- C5: the duration formatter renders hours, minutes and seconds as
h + ч, m + м, s + с, showing hours only when the hours value is positive,
minutes when the minutes value is positive or the hours value is (the
hours branch always prints minutes as well), and otherwise just seconds;
`fd_hours_eq_floor`, `fd_minutes_eq_floor` and `fd_secs_eq_floor` identify
the three values with the floors the Python float arithmetic computes. In
particular `format_duration 65 = "1м 5с"`, the single-segment
start=0/end=65 instance of the claim. -/
theorem C5_format_duration_rule (s : ℚ) :
    (0 < fd_hours s →
      format_duration s = toString (fd_hours s) ++ "ч "
        ++ toString (fd_minutes s) ++ "м " ++ toString (fd_secs s) ++ "с")
    ∧ (fd_hours s ≤ 0 → 0 < fd_minutes s →
      format_duration s = toString (fd_minutes s) ++ "м "
        ++ toString (fd_secs s) ++ "с")
    ∧ (fd_hours s ≤ 0 → fd_minutes s ≤ 0 →
      format_duration s = toString (fd_secs s) ++ "с")
    ∧ format_duration 65 = "1м 5с" := by
  refine ⟨?_, ?_, ?_, by decide⟩
  · intro h
    rw [format_duration, if_pos h]
  · intro h1 h2
    rw [format_duration, if_neg (not_lt.mpr h1), if_pos h2]
  · intro h1 h2
    rw [format_duration, if_neg (not_lt.mpr h1), if_neg (not_lt.mpr h2)]

theorem C5_witness :
    (0 < fd_hours 3661
      ∧ format_duration 3661 = toString (fd_hours 3661) ++ "ч "
          ++ toString (fd_minutes 3661) ++ "м " ++ toString (fd_secs 3661) ++ "с")
    ∧ (fd_hours 65 ≤ 0 ∧ 0 < fd_minutes 65
      ∧ format_duration 65 = toString (fd_minutes 65) ++ "м "
          ++ toString (fd_secs 65) ++ "с")
    ∧ (fd_hours 7 ≤ 0 ∧ fd_minutes 7 ≤ 0
      ∧ format_duration 7 = toString (fd_secs 7) ++ "с")
    ∧ format_duration 65 = "1м 5с" :=
  ⟨⟨by decide, (C5_format_duration_rule 3661).1 (by decide)⟩,
   ⟨by decide, by decide, (C5_format_duration_rule 65).2.1 (by decide) (by decide)⟩,
   ⟨by decide, by decide, (C5_format_duration_rule 7).2.2.1 (by decide) (by decide)⟩,
   (C5_format_duration_rule 0).2.2.2⟩

/-- C6: the report pair used by `transcribe_audio_file` (lines 203–205) is
a pure function of the stem — it takes no filesystem argument, so two calls
with the same stem are definitionally the same pair in every filesystem
state — yielding exactly stem + ".md" and stem + "_accurate.md"; the two
names are distinct and non-empty; and on the write path the smart-filename
resolution produces exactly these names whenever the target is absent,
which is the only situation in which the batch writes. -/
theorem C6_report_pair_resolution (stem : String) :
    report_pair stem = (stem ++ ".md", stem ++ "_accurate.md")
    ∧ (report_pair stem).1 ≠ (report_pair stem).2
    ∧ (report_pair stem).1 ≠ ""
    ∧ (report_pair stem).2 ≠ ""
    ∧ (∀ fs : FS, FS.exists_ fs (stem ++ ".md") = false →
        create_smart_filename fs stem ".md" = (report_pair stem).1)
    ∧ (∀ fs : FS, FS.exists_ fs (stem ++ "_accurate.md") = false →
        create_smart_filename fs (stem ++ "_accurate") ".md" = (report_pair stem).2) :=
  ⟨rfl, simple_name_ne_detailed_name stem, (report_names_ne_empty stem).1,
   (report_names_ne_empty stem).2,
   fun fs h => create_smart_filename_of_not_exists fs stem ".md" h,
   fun fs h => detailed_smart_name fs stem h⟩

theorem C6_witness :
    report_pair "talk" = ("talk" ++ ".md", "talk" ++ "_accurate.md")
    ∧ (report_pair "talk").1 ≠ (report_pair "talk").2
    ∧ FS.exists_ [("other.md", "x")] ("talk" ++ ".md") = false
    ∧ create_smart_filename [("other.md", "x")] "talk" ".md" = (report_pair "talk").1
    ∧ FS.exists_ [("other.md", "x")] ("talk" ++ "_accurate.md") = false
    ∧ create_smart_filename [("other.md", "x")] ("talk" ++ "_accurate") ".md"
        = (report_pair "talk").2 :=
  ⟨(C6_report_pair_resolution "talk").1,
   (C6_report_pair_resolution "talk").2.1,
   by decide,
   (C6_report_pair_resolution "talk").2.2.2.2.1 [("other.md", "x")] (by decide),
   by decide,
   (C6_report_pair_resolution "talk").2.2.2.2.2 [("other.md", "x")] (by decide)⟩

/-- C7 counterexample: the run does not expose the four counts the claim
names. For a batch over one file whose two reports already exist, the only
aggregate statistics `main` reports are the file count, the length of
`all_created_files` and the approximate word count; here they come out as
1 audio file and 2 created files, although the run created nothing (the
directory is returned unchanged) and skipped the file. A run exposing the
claimed statistics would have to report 1 discovered, 1 skipped, 0
succeeded, 0 failed — no exposed counter carries the skip, and the
created-files counter reports 2 for a run that wrote no file. -/
theorem C7_counterexample :
    (run_main [("t.md", "a"), ("t_accurate.md", "b")] "medium" "2024-01-01"
        [⟨⟨"t.mp3", "t", 4⟩, .error "never called", none⟩]).1 =
      ⟨1, 2, 0⟩
    ∧ (run_main [("t.md", "a"), ("t_accurate.md", "b")] "medium" "2024-01-01"
        [⟨⟨"t.mp3", "t", 4⟩, .error "never called", none⟩]).2.fs =
      [("t.md", "a"), ("t_accurate.md", "b")]
    ∧ (run_main [("t.md", "a"), ("t_accurate.md", "b")] "medium" "2024-01-01"
        [⟨⟨"t.mp3", "t", 4⟩, .error "never called", none⟩]).2.events =
      [.skipped] := by
  refine ⟨?_, ?_, ?_⟩ <;> decide

/-- C7 (amended): after one batch pass the run reports three aggregates —
the number of audio files handled, the length of the accumulated
created-files list, and the approximate word count; skips, successes and
failures are announced per file (as events) but not counted. For one fresh
file whose transcription succeeds, the run reports 1 audio file and 2
created report files, with one completed-processing event. -/
theorem C7_amended_session_statistics (fs : FS) (file : AudioFile)
    (model_name now : String) (r : TranscriptionResult)
    (h1 : FS.exists_ fs (file.stem ++ ".md") = false)
    (h2 : FS.exists_ fs (file.stem ++ "_accurate.md") = false) :
    (run_main fs model_name now [⟨file, .ok r, none⟩]).1 =
      ⟨1, 2, preview_words (preview_of r)⟩
    ∧ (run_main fs model_name now [⟨file, .ok r, none⟩]).2.events = [.done] := by
  have hs := step_fresh fs file model_name now r h1 h2
  constructor <;> simp [run_main, processFiles, hs]

theorem C7_witness :
    FS.exists_ [] ("talk" ++ ".md") = false
    ∧ FS.exists_ [] ("talk" ++ "_accurate.md") = false
    ∧ (run_main [] "medium" "2024-01-01"
        [⟨⟨"talk.mp3", "talk", 4⟩, .ok ⟨"hello world", none, none⟩, none⟩]).1 =
      ⟨1, 2, preview_words (preview_of ⟨"hello world", none, none⟩)⟩
    ∧ (run_main [] "medium" "2024-01-01"
        [⟨⟨"talk.mp3", "talk", 4⟩, .ok ⟨"hello world", none, none⟩, none⟩]).2.events =
      [.done] :=
  ⟨by decide, by decide,
   (C7_amended_session_statistics [] ⟨"talk.mp3", "talk", 4⟩ "medium"
     "2024-01-01" ⟨"hello world", none, none⟩ (by decide) (by decide)).1,
   (C7_amended_session_statistics [] ⟨"talk.mp3", "talk", 4⟩ "medium"
     "2024-01-01" ⟨"hello world", none, none⟩ (by decide) (by decide)).2⟩

/-- C8 counterexample: discovery does not return exactly the files whose
extension belongs to the fixed set. The dotfile .x.mp3 has extension mp3
(the characters after its last dot), which is in the set, yet
`glob.glob` patterns starting with `*` never match names starting with a
dot, so discovery over a directory containing only that file returns
nothing. -/
theorem C8_counterexample :
    claim_extension ['.', 'x', '.', 'm', 'p', '3'] = ['m', 'p', '3']
    ∧ ['m', 'p', '3'] ∈ audio_extensions
    ∧ get_audio_files [['.', 'x', '.', 'm', 'p', '3']] = [] := by
  refine ⟨?_, ?_, ?_⟩ <;> decide

/-- C8 (amended): from a single directory listing without duplicate names,
discovery returns exactly the entries that do not begin with a dot and end
with a dot followed by one of the seven extensions mp3, wav, m4a, flac,
ogg, wma, aac (case-sensitively), each such entry exactly once — no
name can match two of the patterns — and nothing else; the function is
pure, so the directory itself is unaffected. -/
theorem C8_amended_discovery (dir : List (List Char)) (hd : dir.Nodup) :
    (get_audio_files dir).Nodup
    ∧ ∀ n, (n ∈ get_audio_files dir ↔
        n ∈ dir ∧ ∃ e ∈ audio_extensions, glob_match e n = true) :=
  ⟨get_audio_files_nodup dir hd, fun n => mem_get_audio_files dir n⟩

theorem C8_witness :
    ([['a', '.', 'm', 'p', '3'], ['b', '.', 'w', 'a', 'v'],
      ['c', '.', 't', 'x', 't']] : List (List Char)).Nodup
    ∧ ((get_audio_files [['a', '.', 'm', 'p', '3'], ['b', '.', 'w', 'a', 'v'],
        ['c', '.', 't', 'x', 't']]).Nodup
      ∧ ∀ n, (n ∈ get_audio_files [['a', '.', 'm', 'p', '3'],
          ['b', '.', 'w', 'a', 'v'], ['c', '.', 't', 'x', 't']] ↔
        n ∈ [['a', '.', 'm', 'p', '3'], ['b', '.', 'w', 'a', 'v'],
          ['c', '.', 't', 'x', 't']]
        ∧ ∃ e ∈ audio_extensions, glob_match e n = true)) :=
  ⟨by decide,
   C8_amended_discovery [['a', '.', 'm', 'p', '3'], ['b', '.', 'w', 'a', 'v'],
     ['c', '.', 't', 'x', 't']] (by decide)⟩

/-- Summing the default-0 confidences equals summing just the present
ones: an absent value contributes 0. -/
theorem sum_getD_confidences (l : List Segment) :
    (l.map (fun s => s.avg_logprob.getD 0)).sum
      = (l.filterMap (fun s => s.avg_logprob)).sum := by
  induction l with
  | nil => simp
  | cons s rest ih => cases h : s.avg_logprob <;> simp [h, ih]

/-- C9: in the average-confidence computation of the detailed report, a
segment lacking a confidence value contributes 0 to the numerator while
still being counted in the denominator: for a present, non-empty segment
list the rendered mean equals the sum of the present confidence values
divided by the total number of segments — not by the number of segments
that carry a value. -/
theorem C9_mean_counts_all_segments (r : TranscriptionResult)
    (l : List Segment) (hs : r.segments = some l) (hne : l ≠ []) :
    avg_logprob_mean l
      = (l.filterMap (fun s => s.avg_logprob)).sum / (l.length : ℚ)
    ∧ avg_confidence_str r
      = toString ((l.filterMap (fun s => s.avg_logprob)).sum / (l.length : ℚ)) := by
  have hm : avg_logprob_mean l
      = (l.filterMap (fun s => s.avg_logprob)).sum / (l.length : ℚ) := by
    rw [avg_logprob_mean, sum_getD_confidences]
  have ht : truthy_segments r = true := by
    simp [truthy_segments, hs, hne]
  refine ⟨hm, ?_⟩
  rw [avg_confidence_str, if_pos ht, hs]
  simp [hm]

theorem C9_witness :
    (⟨"t", none, some [⟨0, 1, "a", some 1⟩, ⟨1, 2, "b", none⟩]⟩ :
        TranscriptionResult).segments
      = some [⟨0, 1, "a", some 1⟩, ⟨1, 2, "b", none⟩]
    ∧ ([⟨0, 1, "a", some 1⟩, ⟨1, 2, "b", none⟩] : List Segment) ≠ []
    ∧ ([⟨0, 1, "a", some 1⟩, ⟨1, 2, "b", none⟩] : List Segment).length = 2
    ∧ (([⟨0, 1, "a", some 1⟩, ⟨1, 2, "b", none⟩] : List Segment).filterMap
        (fun s => s.avg_logprob)).length = 1
    ∧ avg_logprob_mean [⟨0, 1, "a", some 1⟩, ⟨1, 2, "b", none⟩]
      = (([⟨0, 1, "a", some 1⟩, ⟨1, 2, "b", none⟩] : List Segment).filterMap
          (fun s => s.avg_logprob)).sum
        / (([⟨0, 1, "a", some 1⟩, ⟨1, 2, "b", none⟩] : List Segment).length : ℚ)
    ∧ avg_confidence_str ⟨"t", none, some [⟨0, 1, "a", some 1⟩, ⟨1, 2, "b", none⟩]⟩
      = toString ((([⟨0, 1, "a", some 1⟩, ⟨1, 2, "b", none⟩] : List Segment).filterMap
          (fun s => s.avg_logprob)).sum
        / (([⟨0, 1, "a", some 1⟩, ⟨1, 2, "b", none⟩] : List Segment).length : ℚ)) :=
  ⟨rfl, by decide, by decide, by decide,
   (C9_mean_counts_all_segments ⟨"t", none, some [⟨0, 1, "a", some 1⟩, ⟨1, 2, "b", none⟩]⟩
     [⟨0, 1, "a", some 1⟩, ⟨1, 2, "b", none⟩] rfl (by decide)).1,
   (C9_mean_counts_all_segments ⟨"t", none, some [⟨0, 1, "a", some 1⟩, ⟨1, 2, "b", none⟩]⟩
     [⟨0, 1, "a", some 1⟩, ⟨1, 2, "b", none⟩] rfl (by decide)).2⟩

/-- C10: when an exception hits the per-file try block after the simple
report has been written — here injected at the `create_detailed_markdown`
call — the caught-exception path returns an empty created-files list and
announces the failure, performing no cleanup: the directory it returns
still holds the freshly written simple report, which is therefore on disk
yet absent from the created-files the run counts. -/
theorem C10_error_path_keeps_orphan_simple_report (fs : FS)
    (file : AudioFile) (model_name now : String) (r : TranscriptionResult)
    (e : String)
    (h1 : FS.exists_ fs (file.stem ++ ".md") = false)
    (h2 : FS.exists_ fs (file.stem ++ "_accurate.md") = false) :
    transcribe_audio_file fs file model_name now (.ok r) (some e) =
      ⟨[], "", .failed (err_msg file.name e),
        FS.write fs (file.stem ++ ".md") (simple_content file r)⟩
    ∧ FS.read (transcribe_audio_file fs file model_name now (.ok r) (some e)).fs
        (file.stem ++ ".md") = some (simple_content file r) := by
  have hs := step_detailed_fault fs file model_name now r e h1 h2
  refine ⟨hs, ?_⟩
  rw [hs]
  exact FS.read_write_self fs _ _

theorem C10_witness :
    FS.exists_ [] ("talk" ++ ".md") = false
    ∧ FS.exists_ [] ("talk" ++ "_accurate.md") = false
    ∧ transcribe_audio_file [] ⟨"talk.mp3", "talk", 4⟩ "medium" "2024-01-01"
        (.ok ⟨"hello", none, none⟩) (some "disk full") =
        ⟨[], "", .failed (err_msg "talk.mp3" "disk full"),
          FS.write [] ("talk" ++ ".md")
            (simple_content ⟨"talk.mp3", "talk", 4⟩ ⟨"hello", none, none⟩)⟩
    ∧ FS.read (transcribe_audio_file [] ⟨"talk.mp3", "talk", 4⟩ "medium"
        "2024-01-01" (.ok ⟨"hello", none, none⟩) (some "disk full")).fs
        ("talk" ++ ".md")
      = some (simple_content ⟨"talk.mp3", "talk", 4⟩ ⟨"hello", none, none⟩) :=
  ⟨by decide, by decide,
   (C10_error_path_keeps_orphan_simple_report [] ⟨"talk.mp3", "talk", 4⟩
     "medium" "2024-01-01" ⟨"hello", none, none⟩ "disk full"
     (by decide) (by decide)).1,
   (C10_error_path_keeps_orphan_simple_report [] ⟨"talk.mp3", "talk", 4⟩
     "medium" "2024-01-01" ⟨"hello", none, none⟩ "disk full"
     (by decide) (by decide)).2⟩
